import Mathlib

/-!
Verification of the interval-collection engine of
`packages/dds/sequence/src/intervalCollection.ts`.

The development shallowly embeds the interval data model, the serialization
helpers, the local collection with its indices, the slide-listener protocol,
and the acknowledgement / rebase pipeline of `IntervalCollection`.  Machinery
owned by the external merge-tree package (segments, local reference positions,
red-black trees) is modelled from the spec where noted; everything else is a
direct translation of the TypeScript source.
-/

namespace Fluid

/-! ## Basic enumerations -/

/-- `IntervalStickiness` bitmask from the source: NONE = 0b00, START = 0b01,
END = 0b10 (the default), FULL = 0b11. -/
def IntervalStickiness.NONE : Nat := 0
def IntervalStickiness.START : Nat := 1
def IntervalStickiness.END : Nat := 2
def IntervalStickiness.FULL : Nat := 3

/-- `IntervalType` enum from the source: Simple = 0x0, Nest = 0x1,
SlideOnRemove = 0x2, Transient = 0x4. -/
def IntervalType.Simple : Nat := 0
def IntervalType.Nest : Nat := 1
def IntervalType.SlideOnRemove : Nat := 2
def IntervalType.Transient : Nat := 4

/-- Modelled from the spec: the merge-tree `SlidingPreference` of a local
reference position is either Forward or Backward. -/
inductive SlidingPreference where
  | FORWARD
  | BACKWARD
deriving DecidableEq, Repr

/-- Modelled from the spec: the merge-tree `ReferenceType` is a bitmask of
independent flags (RangeBegin, RangeEnd, NestBegin, NestEnd, SlideOnRemove,
StayOnRemove, Transient); we model it as a record of booleans. -/
structure ReferenceType where
  rangeBegin : Bool := false
  rangeEnd : Bool := false
  nestBegin : Bool := false
  nestEnd : Bool := false
  slideOnRemove : Bool := false
  stayOnRemove : Bool := false
  transient : Bool := false
deriving DecidableEq, Repr

/-- `startReferenceSlidingPreference` from the source: if any start
stickiness, prefer sliding backwards. -/
def startReferenceSlidingPreference (stickiness : Nat) : SlidingPreference :=
  if stickiness &&& IntervalStickiness.START ≠ 0 then
    SlidingPreference.BACKWARD
  else
    SlidingPreference.FORWARD

/-- `endReferenceSlidingPreference` from the source: if any end stickiness,
prefer sliding forwards. -/
def endReferenceSlidingPreference (stickiness : Nat) : SlidingPreference :=
  if stickiness &&& IntervalStickiness.END ≠ 0 then
    SlidingPreference.FORWARD
  else
    SlidingPreference.BACKWARD

/-! ## Property sets -/

/-- A `PropertySet` restricted to the shape the interval code inspects: the
two reserved keys (`referenceRangeLabels`, `intervalId`) are explicit
optional fields, every other key is kept in an opaque association list. -/
structure PropertySet where
  rangeLabels : Option (List String) := none
  intervalId : Option String := none
  other : List (String × String) := []
deriving DecidableEq, Repr

instance : Inhabited PropertySet := ⟨{}⟩

/-- Key-wise merge `addProperties(base, newProps)`: keys present in
`newProps` override those of `base` (merge-tree `addProperties`, modelled
from the spec for the three-field shape above). -/
def mergeProps (base newProps : PropertySet) : PropertySet :=
  { rangeLabels := newProps.rangeLabels.orElse fun _ => base.rangeLabels
    intervalId := newProps.intervalId.orElse fun _ => base.intervalId
    other := newProps.other ++ base.other.filter
      (fun kv => newProps.other.all (fun kv2 => kv2.fst ≠ kv.fst)) }

/-! ## Serialized forms (C3, C8) -/

/-- `ISerializedInterval` from the source: serialized object representation
of an interval, used for ops that create or change intervals. -/
structure ISerializedInterval where
  sequenceNumber : Int
  start : Int
  end_ : Int
  intervalType : Nat
  stickiness : Option Nat := none
  properties : Option PropertySet := none
deriving DecidableEq, Repr

/-- `CompressedSerializedInterval` from the source: the V2 summary tuple
`[start, end, sequenceNumber, intervalType, properties, stickiness?]`;
the optional sixth slot is an `Option` field. -/
structure CompressedSerializedInterval where
  start : Int
  end_ : Int
  sequenceNumber : Int
  intervalType : Nat
  properties : PropertySet
  stickiness : Option Nat := none
deriving DecidableEq, Repr

/-- `compressInterval` from the source: strips `referenceRangeLabels` from
the properties (it is stored once in the collection `label`), and appends
the stickiness slot only when it is defined and different from END. -/
def compressInterval (interval : ISerializedInterval) : CompressedSerializedInterval :=
  { start := interval.start
    end_ := interval.end_
    sequenceNumber := interval.sequenceNumber
    intervalType := interval.intervalType
    properties := { interval.properties.getD {} with rangeLabels := none }
    stickiness :=
      if interval.stickiness ≠ none ∧ interval.stickiness ≠ some IntervalStickiness.END then
        interval.stickiness
      else
        none }

/-- `decompressInterval` from the source: rebuilds an `ISerializedInterval`
from the V2 tuple, re-injecting `rangeLabels = [label]` into the
properties; the stickiness slot is copied as-is (possibly absent). -/
def decompressInterval (interval : CompressedSerializedInterval) (label : String) :
    ISerializedInterval :=
  { start := interval.start
    end_ := interval.end_
    sequenceNumber := interval.sequenceNumber
    intervalType := interval.intervalType
    properties := some { interval.properties with rangeLabels := some [label] }
    stickiness := interval.stickiness }

/-- `LocalIntervalCollection.createLegacyId` from the source: a non-unique
deterministic id for intervals coming from legacy clients without ids. -/
def createLegacyId (start end_ : Int) : String :=
  "legacy" ++ toString start ++ "-" ++ toString end_

/-- Result of `ensureSerializedId`: the returned id, the (possibly updated)
serialized interval, and whether the `intervalId` property is left writable
(the source always ends with `Object.defineProperty(…, writable: false)`). -/
structure EnsureIdResult where
  id : String
  serialized : ISerializedInterval
  idWritable : Bool
deriving DecidableEq, Repr

/-- `LocalIntervalCollection.ensureSerializedId` from the source: if the
serialized interval already has an `intervalId` property it is returned
unchanged; otherwise the legacy id built from start and end is written into
the properties; in both cases the id property is made non-writable. -/
def ensureSerializedId (s : ISerializedInterval) : EnsureIdResult :=
  match s.properties.bind (fun p => p.intervalId) with
  | some id => { id := id, serialized := s, idWritable := false }
  | none =>
    let id := createLegacyId s.start s.end_
    let props := s.properties.getD {}
    { id := id
      serialized := { s with properties := some { props with intervalId := some id } }
      idWritable := false }

/-! ## Sequence intervals (C5, C6, C10) -/

/-- Modelled from the spec: a merge-tree `LocalReferencePosition`, recording
the attributes the interval code reads and writes — the position it resolves
to (the model keeps the creation position, i.e. a client in which positions
resolve to themselves), the reference-type flags, the sliding preference and
the property bag. -/
structure LocalReferencePosition where
  pos : Int
  refType : ReferenceType
  slidingPreference : SlidingPreference
  properties : PropertySet := {}
deriving DecidableEq, Repr

/-- `createPositionReference` from the source, over the modelled client: the
reference is bound at the requested position with the requested flags and
sliding preference.  (The source's segment lookup and its op/refType asserts
live in the external merge-tree client; in the model every position is
backed by a live segment, which all modelled call sites satisfy.) -/
def createPositionReference (pos : Int) (refType : ReferenceType)
    (slidingPreference : SlidingPreference) : LocalReferencePosition :=
  { pos := pos, refType := refType, slidingPreference := slidingPreference }

/-- `SequenceInterval` from the source: a pair of reference endpoints, the
interval type, a property bag and the stickiness, which the constructor
defaults to END when not supplied. -/
structure SequenceInterval where
  start : LocalReferencePosition
  end_ : LocalReferencePosition
  intervalType : Nat
  properties : PropertySet := {}
  stickiness : Nat := IntervalStickiness.END
deriving DecidableEq, Repr

/-- `SequenceInterval.modify` from the source.  `op` tells whether the call
carries a remote op (the source's `op !== undefined`).  For any endpoint
whose position is supplied a fresh reference is created — `getRefType`
forces StayOnRemove for local (op-less) calls — with the sliding preference
derived from the `stickiness` argument (default END); unchanged endpoints
reuse the existing reference.  The new interval is constructed WITHOUT a
stickiness argument, so its stored stickiness is the default END, and
properties are copied over. -/
def SequenceInterval.modify (i : SequenceInterval) (start end_ : Option Int)
    (op : Bool) (stickiness : Nat := IntervalStickiness.END) : SequenceInterval :=
  let getRefType : ReferenceType → ReferenceType := fun baseType =>
    if op then baseType
    else { baseType with slideOnRemove := false, stayOnRemove := true }
  let startRef :=
    match start with
    | none => i.start
    | some s =>
      let r := createPositionReference s (getRefType i.start.refType)
        (startReferenceSlidingPreference stickiness)
      { r with properties := mergeProps r.properties i.start.properties }
  let endRef :=
    match end_ with
    | none => i.end_
    | some e =>
      let r := createPositionReference e (getRefType i.end_.refType)
        (endReferenceSlidingPreference stickiness)
      { r with properties := mergeProps r.properties i.end_.properties }
  { start := startRef
    end_ := endRef
    intervalType := i.intervalType
    properties := i.properties }

/-- `createSequenceInterval` from the source: picks the base reference types
from the interval type, ORs in SlideOnRemove for acked/snapshot creations
and StayOnRemove for pending local ones, creates both endpoint references
with sliding preferences derived from the stickiness, tags them with
`rangeLabels = [label]`, and builds the interval with that property bag and
the given stickiness. -/
def createSequenceInterval (label : String) (start end_ : Int) (intervalType : Nat)
    (op : Bool) (fromSnapshot : Bool)
    (stickiness : Nat := IntervalStickiness.END) : SequenceInterval :=
  let base : ReferenceType × ReferenceType :=
    if intervalType = IntervalType.Transient then
      ({ transient := true }, { transient := true })
    else
      let b : ReferenceType × ReferenceType :=
        if intervalType = IntervalType.Nest then
          ({ nestBegin := true }, { nestEnd := true })
        else
          ({ rangeBegin := true }, { rangeEnd := true })
      if op ∨ fromSnapshot then
        ({ b.1 with slideOnRemove := true }, { b.2 with slideOnRemove := true })
      else
        ({ b.1 with stayOnRemove := true }, { b.2 with stayOnRemove := true })
  let rangeProp : PropertySet := { rangeLabels := some [label] }
  let startLref := createPositionReference start base.1
    (startReferenceSlidingPreference stickiness)
  let endLref := createPositionReference end_ base.2
    (endReferenceSlidingPreference stickiness)
  { start := { startLref with properties := mergeProps startLref.properties rangeProp }
    end_ := { endLref with properties := mergeProps endLref.properties rangeProp }
    intervalType := intervalType
    properties := rangeProp
    stickiness := stickiness }

/-! ## Numeric intervals (C1, C5, C7) -/

/-- Numeric `Interval` from the source: plain integer endpoints plus a
property bag. -/
structure NumInterval where
  start : Int
  end_ : Int
  properties : PropertySet := {}
deriving DecidableEq, Repr

/-- Numeric `Interval.modify` from the source: missing endpoints default to
the current ones; if both requested positions equal the current positions
the function returns `none` (no change needed), else a new interval with the
properties copied over. -/
def NumInterval.modify (i : NumInterval) (start end_ : Option Int) : Option NumInterval :=
  let startPos := start.getD i.start
  let endPos := end_.getD i.end_
  if i.start = startPos ∧ i.end_ = endPos then
    none
  else
    some { start := startPos, end_ := endPos, properties := i.properties }

/-- `createInterval` from the source (numeric helper): builds the interval
with `rangeLabels = [label]` when the label is non-empty. -/
def createInterval (label : String) (start end_ : Int) : NumInterval :=
  let rangeProp : PropertySet :=
    if label ≠ "" then { rangeLabels := some [label] } else {}
  { start := start, end_ := end_, properties := rangeProp }

/-! ## Association-list maps

The TypeScript code uses JS `Map`s; we model them as association lists. -/

def alookup {κ α : Type} [DecidableEq κ] : List (κ × α) → κ → Option α
  | [], _ => none
  | (k, v) :: rest, key => if k = key then some v else alookup rest key

def aset {κ α : Type} [DecidableEq κ] : List (κ × α) → κ → α → List (κ × α)
  | [], key, v => [(key, v)]
  | (k, w) :: rest, key, v =>
    if k = key then (key, v) :: rest else (k, w) :: aset rest key v

def aerase {κ α : Type} [DecidableEq κ] : List (κ × α) → κ → List (κ × α)
  | [], _ => []
  | (k, w) :: rest, key => if k = key then rest else (k, w) :: aerase rest key

/-! ## Serialized deltas and pending-change maps (C1, C4) -/

/-- `SerializedIntervalDelta` from the source: like `ISerializedInterval`
but with `start`, `end` and `properties` optional (`undefined` means "no
change"). -/
structure SerializedIntervalDelta where
  sequenceNumber : Int
  start : Option Int := none
  end_ : Option Int := none
  intervalType : Nat
  stickiness : Option Nat := none
  properties : Option PropertySet := none
deriving DecidableEq, Repr

/-- A pending-change map `Map<string, SerializedIntervalDelta[]>`. -/
def PendingMap : Type := List (String × List SerializedIntervalDelta)

instance : DecidableEq PendingMap := by
  unfold PendingMap
  infer_instance

/-- `hasPendingChangeStart` / `hasPendingChangeEnd` from the source, on the
underlying map: `entries && entries.length !== 0`. -/
def hasPendingChange (m : PendingMap) (id : String) : Bool :=
  match alookup m id with
  | none => false
  | some entries => !entries.isEmpty

/-- `addPendingChangeHelper` from the source: append the delta to the queue
for `id`, creating the queue when absent. -/
def addPendingChangeHelper (id : String) (pendingChanges : PendingMap)
    (serializedInterval : SerializedIntervalDelta) : PendingMap :=
  match alookup pendingChanges id with
  | none => aset pendingChanges id [serializedInterval]
  | some entries => aset pendingChanges id (entries ++ [serializedInterval])

/-- `addPendingChange` from the source: queue the delta under the start map
when the delta carries a start, and under the end map when it carries an
end. -/
def addPendingChangeMaps (ps pe : PendingMap) (id : String)
    (serializedInterval : SerializedIntervalDelta) : PendingMap × PendingMap :=
  let ps := if serializedInterval.start ≠ none then
    addPendingChangeHelper id ps serializedInterval else ps
  let pe := if serializedInterval.end_ ≠ none then
    addPendingChangeHelper id pe serializedInterval else pe
  (ps, pe)

/-- `removePendingChangeHelper` from the source: dequeue the head entry for
`id` (deleting the queue when it empties) and fail with "Mismatch in pending
changes" when the dequeued start/end do not match the acked delta. -/
def removePendingChangeHelper (id : String) (pendingChanges : PendingMap)
    (serializedInterval : SerializedIntervalDelta) : Except String PendingMap :=
  match alookup pendingChanges id with
  | none => Except.ok pendingChanges
  | some entries =>
    let pendingChange := entries.head?
    let rest := entries.tail
    let m := if rest.isEmpty then aerase pendingChanges id else aset pendingChanges id rest
    if pendingChange.bind (fun d => d.start) = serializedInterval.start ∧
        pendingChange.bind (fun d => d.end_) = serializedInterval.end_ then
      Except.ok m
    else
      Except.error "Mismatch in pending changes"

/-- `removePendingChange` from the source: the id is read from the delta's
properties (change ops always carry one), and each endpoint map is dequeued
when the delta carries that endpoint. -/
def removePendingChangeMaps (ps pe : PendingMap)
    (serializedInterval : SerializedIntervalDelta) : Except String (PendingMap × PendingMap) := do
  let id := (serializedInterval.properties.bind (fun p => p.intervalId)).getD ""
  let ps ← if serializedInterval.start ≠ none then
    removePendingChangeHelper id ps serializedInterval else pure ps
  let pe ← if serializedInterval.end_ ≠ none then
    removePendingChangeHelper id pe serializedInterval else pure pe
  return (ps, pe)

/-! ## Local collections

The id index (a JS `Map` keyed by interval id) is modelled separately from
the order-sensitive index contents; `indexes` holds the contents of every
other registered index (overlap, endpoint, user-attached), each of which
receives the same `add`/`remove` calls. -/

structure LocalNumCollection where
  label : String
  idIntervalIndex : List (String × NumInterval) := []
  indexes : List (List NumInterval) := []
deriving DecidableEq, Repr

/-- `LocalIntervalCollection.add` (numeric instantiation): store the
interval in the id index under its id and insert it into every other
index. -/
def LocalNumCollection.add (lc : LocalNumCollection) (interval : NumInterval) :
    LocalNumCollection :=
  { lc with
    idIntervalIndex :=
      aset lc.idIntervalIndex (interval.properties.intervalId.getD "") interval
    indexes := lc.indexes.map (fun idx => interval :: idx) }

/-- `LocalIntervalCollection.removeExistingInterval` (numeric): remove from
the id index and from every other index. -/
def LocalNumCollection.removeExistingInterval (lc : LocalNumCollection)
    (interval : NumInterval) : LocalNumCollection :=
  { lc with
    idIntervalIndex := aerase lc.idIntervalIndex (interval.properties.intervalId.getD "")
    indexes := lc.indexes.map (fun idx => idx.erase interval) }

/-- `LocalIntervalCollection.changeInterval` (numeric): call
`interval.modify`; when it reports no change return `none` leaving the
collection untouched, otherwise remove the old interval and add the new
one. -/
def LocalNumCollection.changeInterval (lc : LocalNumCollection) (interval : NumInterval)
    (start end_ : Option Int) : Option NumInterval × LocalNumCollection :=
  match interval.modify start end_ with
  | none => (none, lc)
  | some newInterval =>
    (some newInterval, (lc.removeExistingInterval interval).add newInterval)

/-- In-place property mutation of an interval object that already sits in
the indices (JS object identity): every stored occurrence of `old` is
replaced by `new_`. -/
def LocalNumCollection.replaceInterval (lc : LocalNumCollection)
    (old new_ : NumInterval) : LocalNumCollection :=
  { lc with
    idIntervalIndex := lc.idIntervalIndex.map
      (fun kv => if kv.snd = old then (kv.fst, new_) else kv)
    indexes := lc.indexes.map (fun idx => idx.map (fun x => if x = old then new_ else x)) }

structure LocalSeqCollection where
  label : String
  idIntervalIndex : List (String × SequenceInterval) := []
  indexes : List (List SequenceInterval) := []
deriving DecidableEq, Repr

/-- `LocalIntervalCollection.add` (sequence instantiation). -/
def LocalSeqCollection.add (lc : LocalSeqCollection) (interval : SequenceInterval) :
    LocalSeqCollection :=
  { lc with
    idIntervalIndex :=
      aset lc.idIntervalIndex (interval.properties.intervalId.getD "") interval
    indexes := lc.indexes.map (fun idx => interval :: idx) }

/-- `LocalIntervalCollection.removeExistingInterval` (sequence). -/
def LocalSeqCollection.removeExistingInterval (lc : LocalSeqCollection)
    (interval : SequenceInterval) : LocalSeqCollection :=
  { lc with
    idIntervalIndex := aerase lc.idIntervalIndex (interval.properties.intervalId.getD "")
    indexes := lc.indexes.map (fun idx => idx.erase interval) }

/-- `LocalIntervalCollection.changeInterval` (sequence): calls
`SequenceInterval.modify`, which always returns a (new) interval object — a
truthy value — so the old interval is always removed and the new one added
and returned.  The `Option` in the result mirrors the TS return type
`TInterval | undefined`. -/
def LocalSeqCollection.changeInterval (lc : LocalSeqCollection) (interval : SequenceInterval)
    (start end_ : Option Int) (op : Bool) : Option SequenceInterval × LocalSeqCollection :=
  let newInterval := interval.modify start end_ op
  (some newInterval, (lc.removeExistingInterval interval).add newInterval)

/-! ## The collection state machine (numeric instantiation: C1, C7) -/

/-- State of an attached `IntervalCollection<Interval>`: the local
collection, the two pending-change maps, the local-seq bookkeeping, the
outbound op log, and the `intervalStickinessEnabled` option.  `hasClient`
records whether a merge-tree client is attached (`getNextLocalSeq` returns
0 without one); `uuidCounter` feeds the modelled UUID generator. -/
structure NumCollState where
  label : String
  intervalStickinessEnabled : Bool := false
  hasClient : Bool := false
  currentSeq : Int := 0
  localCollection : LocalNumCollection
  pendingChangesStart : PendingMap := []
  pendingChangesEnd : PendingMap := []
  localSeq : Nat := 0
  localSeqToSerializedInterval : List (Nat × SerializedIntervalDelta) := []
  emitted : List (String × SerializedIntervalDelta) := []
  uuidCounter : Nat := 0
deriving DecidableEq

def NumCollState.hasPendingChangeStart (st : NumCollState) (id : String) : Bool :=
  hasPendingChange st.pendingChangesStart id

def NumCollState.hasPendingChangeEnd (st : NumCollState) (id : String) : Bool :=
  hasPendingChange st.pendingChangesEnd id

/-- `getIntervalById` from the source (via the id index). -/
def NumCollState.getIntervalById (st : NumCollState) (id : String) : Option NumInterval :=
  alookup st.localCollection.idIntervalIndex id

/-- `IntervalCollection.ackChange` from the source (numeric instantiation,
assumed attached).  For a local ack: drop the recorded local-seq entry and
dequeue the matching pending changes (mismatch is fatal); numeric intervals
need no ack-slide, and the property manager's pending-set pruning has no
observable effect on the modelled property bag.  For a remote ack: strip the
id from the properties, and for each of start/end apply the remote value via
`changeInterval` only when no local change for that endpoint of that id is
pending; finally merge the property delta into the stored interval object. -/
def NumCollState.ackChange (st : NumCollState)
    (serializedInterval : SerializedIntervalDelta) (local_ : Bool)
    (localSeqMetadata : Option Nat) : Except String NumCollState := do
  let st ←
    if local_ then do
      let lseq ← match localSeqMetadata with
        | none => Except.error "op metadata should be defined for local op"
        | some lseq => pure lseq
      let st := { st with
        localSeqToSerializedInterval := aerase st.localSeqToSerializedInterval lseq }
      let (ps, pe) ← removePendingChangeMaps st.pendingChangesStart st.pendingChangesEnd
        serializedInterval
      pure { st with pendingChangesStart := ps, pendingChangesEnd := pe }
    else
      pure st
  let id ← match serializedInterval.properties.bind (fun p => p.intervalId) with
    | none => Except.error "id must exist on the interval"
    | some id => pure id
  let newProps : PropertySet :=
    { serializedInterval.properties.getD {} with intervalId := none }
  match st.getIntervalById id with
  | none =>
    -- The interval has been removed locally; no-op.
    return st
  | some interval =>
    if local_ then
      -- ackPendingProperties / ackInterval: no observable effect for the
      -- numeric instantiation (no endpoint references to slide).
      return st
    else
      let start := if st.hasPendingChangeStart id then none else serializedInterval.start
      let end_ := if st.hasPendingChangeEnd id then none else serializedInterval.end_
      let p :=
        if start ≠ none ∨ end_ ≠ none then
          st.localCollection.changeInterval interval start end_
        else
          (none, st.localCollection)
      let newInterval := p.fst.getD interval
      let merged := { newInterval with
        properties := mergeProps newInterval.properties newProps }
      return { st with localCollection := p.snd.replaceInterval newInterval merged }

/-- `LocalIntervalCollection.addInterval` (numeric instantiation): create
via the numeric helper, reject properties whose `rangeLabels` names a
different collection, merge the supplied properties, default the id to a
fresh UUID, and add to every index. -/
def LocalNumCollection.addInterval (lc : LocalNumCollection) (start end_ : Int)
    (props : Option PropertySet) (freshUuid : String) :
    Except String (NumInterval × LocalNumCollection) := do
  let interval := createInterval lc.label start end_
  let interval ← match props with
    | none => pure interval
    | some p =>
      if p.rangeLabels ≠ none ∧ (p.rangeLabels.getD []).head? ≠ some lc.label then
        Except.error
          "Adding an interval that belongs to another interval collection is not permitted"
      else
        pure { interval with properties := mergeProps interval.properties p }
  let interval :=
    if interval.properties.intervalId = none then
      { interval with properties := { interval.properties with intervalId := some freshUuid } }
    else
      interval
  return (interval, lc.add interval)

/-- `getNextLocalSeq` from the source: increments the collab window's
local-seq counter when a client exists, else returns 0. -/
def NumCollState.getNextLocalSeq (st : NumCollState) : Nat × NumCollState :=
  if st.hasClient then
    (st.localSeq + 1, { st with localSeq := st.localSeq + 1 })
  else
    (0, st)

/-- `IntervalCollection.add` from the source (numeric instantiation,
assumed attached): reject Transient interval types; reject non-End
stickiness when the `intervalStickinessEnabled` option is off; otherwise
create and index the interval, record the serialized form under a fresh
local-seq, and emit the outbound "add" op.  Failures are raised before any
state is touched, so an error leaves the caller's state unchanged. -/
def NumCollState.add (st : NumCollState) (start end_ : Int) (intervalType : Nat)
    (props : Option PropertySet := none)
    (stickiness : Nat := IntervalStickiness.END) :
    Except String (NumInterval × NumCollState) := do
  if intervalType &&& IntervalType.Transient ≠ 0 then
    Except.error "Can not add transient intervals"
  else if stickiness ≠ IntervalStickiness.END ∧ ¬ st.intervalStickinessEnabled then
    Except.error
      "attempted to set interval stickiness without enabling intervalStickinessEnabled feature flag"
  else
    let freshUuid := "uuid-" ++ toString st.uuidCounter
    let st := { st with uuidCounter := st.uuidCounter + 1 }
    let (interval, lc) ← st.localCollection.addInterval start end_ props freshUuid
    let serializedInterval : SerializedIntervalDelta :=
      { start := some start
        end_ := some end_
        intervalType := intervalType
        properties := some interval.properties
        sequenceNumber := if st.hasClient then st.currentSeq else 0
        stickiness := some stickiness }
    let (localSeq, st) := st.getNextLocalSeq
    let st := { st with
      localCollection := lc
      localSeqToSerializedInterval := aset st.localSeqToSerializedInterval localSeq
        serializedInterval
      emitted := ("add", serializedInterval) :: st.emitted }
    return (interval, st)

/-! ## The collection state machine (sequence instantiation: C4) -/

/-- Modelled from the spec: the merge-tree `DetachedReferencePosition`
sentinel, returned when a reference's anchor segment has been removed and no
slide target exists; it never overlaps any live range. -/
def DetachedReferencePosition : Int := -1

/-- State of an attached `IntervalCollection<SequenceInterval>` (client
present), with the fields `rebaseLocalInterval` touches. -/
structure SeqCollState where
  label : String
  currentSeq : Int := 0
  localCollection : LocalSeqCollection
  pendingChangesStart : PendingMap := []
  pendingChangesEnd : PendingMap := []
  localSeqToRebasedInterval : List (Nat × SerializedIntervalDelta) := []
deriving DecidableEq

def SeqCollState.hasPendingChangeStart (st : SeqCollState) (id : String) : Bool :=
  hasPendingChange st.pendingChangesStart id

def SeqCollState.hasPendingChangeEnd (st : SeqCollState) (id : String) : Bool :=
  hasPendingChange st.pendingChangesEnd id

/-- `IntervalCollection.rebaseLocalInterval` from the source, for an
attached collection with a client.  The rebased endpoint positions come from
`localSeqToRebasedInterval` when the normalize hook cached them, else from
`computeRebasedPositions`; since that computation walks the external
merge-tree, the model takes its result as the argument
`computeRebasedPositions`.  If the op is a change with pending changes for
its id, the queued entry is replaced by the rebased one.  If either rebased
endpoint is the DetachedReferencePosition sentinel the op becomes `none` and
a still-existing local interval is removed; otherwise the rebased delta is
returned and a still-existing local interval is updated via
`changeInterval`. -/
def SeqCollState.rebaseLocalInterval (st : SeqCollState)
    (computeRebasedPositions : SerializedIntervalDelta) (opName : String)
    (serializedInterval : SerializedIntervalDelta) (localSeq : Nat) :
    Except String (Option SerializedIntervalDelta × SeqCollState) :=
  let rebasedSE := (alookup st.localSeqToRebasedInterval localSeq).getD
    computeRebasedPositions
  let startRebased := rebasedSE.start
  let endRebased := rebasedSE.end_
  let intervalId := (serializedInterval.properties.bind (fun p => p.intervalId)).getD ""
  let localInterval := alookup st.localCollection.idIntervalIndex intervalId
  let rebased : SerializedIntervalDelta :=
    { start := startRebased
      end_ := endRebased
      intervalType := serializedInterval.intervalType
      sequenceNumber := st.currentSeq
      properties := serializedInterval.properties }
  let stepPending : Except String SeqCollState :=
    if opName = "change" ∧
        (st.hasPendingChangeStart intervalId ∨ st.hasPendingChangeEnd intervalId) then
      match removePendingChangeMaps st.pendingChangesStart st.pendingChangesEnd
          serializedInterval with
      | Except.error e => Except.error e
      | Except.ok pp =>
        let qq := addPendingChangeMaps pp.fst pp.snd intervalId rebased
        Except.ok { st with pendingChangesStart := qq.fst, pendingChangesEnd := qq.snd }
    else
      Except.ok st
  match stepPending with
  | Except.error e => Except.error e
  | Except.ok st =>
    if startRebased = some DetachedReferencePosition ∨
        endRebased = some DetachedReferencePosition then
      Except.ok (none,
        match localInterval with
        | some li =>
          { st with localCollection := st.localCollection.removeExistingInterval li }
        | none => st)
    else
      Except.ok (some rebased,
        match localInterval with
        | some li =>
          { st with
            localCollection := (st.localCollection.changeInterval li startRebased
              endRebased false).snd }
        | none => st)

/-! ## Slide listener protocol (C2) -/

/-- `cloneRef` from `addIntervalListeners`: a transient reference sharing
segment, offset, properties and sliding preference with the original (the
model's references always have a live segment). -/
def cloneRef (r : LocalReferencePosition) : LocalReferencePosition :=
  { r with refType := { transient := true } }

/-- `SequenceInterval.clone` from the source: same client, endpoints, type,
properties and stickiness. -/
def SequenceInterval.clone (i : SequenceInterval) : SequenceInterval := i

/-- The per-interval listener state installed by `addIntervalListeners`:
the `pendingChanges` burst counter and the captured `previousInterval`,
alongside the observable collection state — the index contents and the
number of `onPositionChange` invocations. -/
structure SlideListenerState where
  pendingChanges : Int := 0
  previousInterval : Option SequenceInterval := none
  indexes : List (List SequenceInterval) := []
  positionChangeCount : Nat := 0
deriving DecidableEq

/-- The `beforePositionChange` handler from `addIntervalListeners`:
increment the burst counter; on the first `beforeSlide` of a burst capture a
clone (with transiently cloned endpoints) and remove the interval from all
indices. -/
def beforeSlideStep (interval : SequenceInterval) (st : SlideListenerState) :
    SlideListenerState :=
  let st := { st with pendingChanges := st.pendingChanges + 1 }
  match st.previousInterval with
  | some _ => st
  | none =>
    let prev := { interval.clone with
      start := cloneRef interval.start
      end_ := cloneRef interval.end_ }
    { st with
      previousInterval := some prev
      indexes := st.indexes.map (fun idx => idx.erase interval) }

/-- The `afterPositionChange` handler from `addIntervalListeners`: assert
the burst is open (0x3fa "Invalid interleaving of before/after slide"),
decrement the counter, and on reaching zero re-add the interval to all
indices, fire `onPositionChange` once, and reset `previousInterval`. -/
def afterSlideStep (interval : SequenceInterval) (st : SlideListenerState) :
    Except String SlideListenerState :=
  match st.previousInterval with
  | none => Except.error "Invalid interleaving of before/after slide"
  | some _ =>
    let pc := st.pendingChanges - 1
    if pc = 0 then
      Except.ok
        { pendingChanges := pc
          previousInterval := none
          indexes := st.indexes.map (fun idx => interval :: idx)
          positionChangeCount := st.positionChangeCount + 1 }
    else
      Except.ok { st with pendingChanges := pc }

inductive SlideEvent where
  | beforeSlide
  | afterSlide
deriving DecidableEq, Repr

/-- Run a sequence of slide callbacks against the listener state. -/
def runSlideEvents (interval : SequenceInterval) :
    SlideListenerState → List SlideEvent → Except String SlideListenerState
  | st, [] => Except.ok st
  | st, SlideEvent.beforeSlide :: rest =>
    runSlideEvents interval (beforeSlideStep interval st) rest
  | st, SlideEvent.afterSlide :: rest =>
    match afterSlideStep interval st with
    | Except.error e => Except.error e
    | Except.ok st' => runSlideEvents interval st' rest

def countBefore (evs : List SlideEvent) : Nat := evs.count SlideEvent.beforeSlide

def countAfter (evs : List SlideEvent) : Nat := evs.count SlideEvent.afterSlide

/-- A slide burst: a non-empty callback sequence in which the final
`afterSlide` count equals the `beforeSlide` count and every proper prefix
keeps the counter strictly positive (each `afterSlide` is preceded by a
matching `beforeSlide`, and balance is reached only at the end — one burst
per merge-tree operation, covering both endpoints sliding at once). -/
def IsSlideBurst (evs : List SlideEvent) : Prop :=
  evs ≠ [] ∧ countAfter evs = countBefore evs ∧
    ∀ k, k < evs.length → 0 < k → countAfter (evs.take k) < countBefore (evs.take k)

/-! ## Endpoint/startpoint-in-range indices (C9) -/

/-- An entry of the in-range index trees: the interval plus the transient
`forceCompare` override (a symbol property in the source; 0 when absent,
−1/+1 on the query probes). -/
structure IndexableInterval where
  interval : NumInterval
  forceCompare : Int := 0
deriving DecidableEq, Repr

/-- `localeCompare`-style total order on id strings. -/
def localeCompare (x y : String) : Int :=
  if x < y then -1 else if x = y then 0 else 1

/-- `compareOverrideables` from the source. -/
def compareOverrideables (a b : IndexableInterval) : Int :=
  a.forceCompare - b.forceCompare

/-- The `EndpointInRangeIndex` tree comparator from the source:
`compareEnds`, then the override, then id order (when both ids exist). -/
def endpointInRangeCompare (a b : IndexableInterval) : Int :=
  let compareEndsResult := a.interval.end_ - b.interval.end_
  if compareEndsResult ≠ 0 then compareEndsResult
  else
    let overrideablesComparison := compareOverrideables a b
    if overrideablesComparison ≠ 0 then overrideablesComparison
    else
      match a.interval.properties.intervalId, b.interval.properties.intervalId with
      | some aId, some bId => localeCompare aId bId
      | _, _ => 0

/-- The `StartpointInRangeIndex` tree comparator from the source:
`compareStarts`, then the override, then id order. -/
def startpointInRangeCompare (a b : IndexableInterval) : Int :=
  let compareStartsResult := a.interval.start - b.interval.start
  if compareStartsResult ≠ 0 then compareStartsResult
  else
    let overrideablesComparison := compareOverrideables a b
    if overrideablesComparison ≠ 0 then overrideablesComparison
    else
      match a.interval.properties.intervalId, b.interval.properties.intervalId with
      | some aId, some bId => localeCompare aId bId
      | _, _ => 0

/-- Modelled from the spec: `RedBlackTree.mapRange(action, results, lo, hi)`
of the external merge-tree visits exactly the stored entries lying between
the two probe keys under the tree's comparator; the collecting action
accumulates them all. -/
def mapRangeModel (cmp : IndexableInterval → IndexableInterval → Int)
    (entries : List IndexableInterval) (lo hi : IndexableInterval) :
    List IndexableInterval :=
  entries.filter (fun x => cmp lo x ≤ 0 ∧ cmp x hi ≤ 0)

/-- `findIntervalsWithEndpointInRange` from the source: reject `start ≤ 0`,
`start > end` and the empty tree with an empty result (without touching the
tree); otherwise build the two transient probes with the −1/+1 overrides and
collect via `mapRange`.  The boolean records whether the tree was
traversed. -/
def findIntervalsWithEndpointInRange (entries : List IndexableInterval)
    (start end_ : Int) : List IndexableInterval × Bool :=
  if start ≤ 0 ∨ start > end_ ∨ entries.isEmpty then
    ([], false)
  else
    let transientStartInterval : IndexableInterval :=
      { interval := createInterval "transient" start start, forceCompare := -1 }
    let transientEndInterval : IndexableInterval :=
      { interval := createInterval "transient" end_ end_, forceCompare := 1 }
    (mapRangeModel endpointInRangeCompare entries transientStartInterval
      transientEndInterval, true)

/-- `findIntervalsWithStartpointInRange` from the source: same guard and
probe construction, over the startpoint comparator. -/
def findIntervalsWithStartpointInRange (entries : List IndexableInterval)
    (start end_ : Int) : List IndexableInterval × Bool :=
  if start ≤ 0 ∨ start > end_ ∨ entries.isEmpty then
    ([], false)
  else
    let transientStartInterval : IndexableInterval :=
      { interval := createInterval "transient" start start, forceCompare := -1 }
    let transientEndInterval : IndexableInterval :=
      { interval := createInterval "transient" end_ end_, forceCompare := 1 }
    (mapRangeModel startpointInRangeCompare entries transientStartInterval
      transientEndInterval, true)

/-! ## Concrete example states used by theorem witnesses -/

/-- A sequence interval at positions (3, 5) carrying id "a". -/
def exC5Interval : SequenceInterval :=
  { createSequenceInterval "L" 3 5 IntervalType.SlideOnRemove false false with
    properties := { rangeLabels := some ["L"], intervalId := some "a" } }

/-- A local sequence collection holding `exC5Interval` in one index. -/
def exC5Collection : LocalSeqCollection :=
  { label := "L", idIntervalIndex := [("a", exC5Interval)], indexes := [[exC5Interval]] }

/-- A numeric interval at (1, 4) with id "n". -/
def exC5Num : NumInterval :=
  { start := 1, end_ := 4, properties := { intervalId := some "n" } }

/-- A local numeric collection holding `exC5Num` in one index. -/
def exC5NumColl : LocalNumCollection :=
  { label := "L", idIntervalIndex := [("n", exC5Num)], indexes := [[exC5Num]] }

/-- A numeric interval at (0, 1) with id "a". -/
def exC1Interval : NumInterval :=
  { start := 0, end_ := 1, properties := { intervalId := some "a" } }

/-- A locally pending change delta for the start of "a". -/
def exC1PendingDelta : SerializedIntervalDelta :=
  { sequenceNumber := 1, start := some 2, intervalType := 2,
    properties := some { intervalId := some "a" } }

/-- A remote change delta moving "a" to (5, 9). -/
def exC1Delta : SerializedIntervalDelta :=
  { sequenceNumber := 3, start := some 5, end_ := some 9, intervalType := 2,
    properties := some { intervalId := some "a" } }

/-- A collection holding "a" with a locally pending start change. -/
def exC1State : NumCollState :=
  { label := "L"
    localCollection :=
      { label := "L", idIntervalIndex := [("a", exC1Interval)], indexes := [[exC1Interval]] }
    pendingChangesStart := [("a", [exC1PendingDelta])] }

/-- A sequence interval at (0, 2) with id "a". -/
def exC4Interval : SequenceInterval :=
  { createSequenceInterval "L" 0 2 IntervalType.SlideOnRemove false false with
    properties := { rangeLabels := some ["L"], intervalId := some "a" } }

/-- An attached sequence-collection state holding `exC4Interval`. -/
def exC4State : SeqCollState :=
  { label := "L"
    localCollection :=
      { label := "L", idIntervalIndex := [("a", exC4Interval)], indexes := [[exC4Interval]] } }

/-- Rebased positions in which the start slid off the string. -/
def exC4Detached : SerializedIntervalDelta :=
  { sequenceNumber := 0, start := some (-1), end_ := some 3, intervalType := 2 }

/-- Rebased positions that stayed on the string. -/
def exC4Ok : SerializedIntervalDelta :=
  { sequenceNumber := 0, start := some 4, end_ := some 6, intervalType := 2 }

/-- The pending local op being rebased (id "a"). -/
def exC4Delta : SerializedIntervalDelta :=
  { sequenceNumber := 0, start := some 0, end_ := some 2, intervalType := 2,
    properties := some { intervalId := some "a" } }

/-- A sequence interval registered with slide listeners. -/
def exC2Interval : SequenceInterval :=
  createSequenceInterval "L" 0 1 IntervalType.SlideOnRemove false false

/-- A listener state whose two indices each hold `exC2Interval` once. -/
def exC2State : SlideListenerState :=
  { indexes := [[exC2Interval], [exC2Interval]] }

/-- A burst in which both endpoints slide: before, before, after, after. -/
def exC2Burst : List SlideEvent :=
  [SlideEvent.beforeSlide, SlideEvent.beforeSlide,
    SlideEvent.afterSlide, SlideEvent.afterSlide]

/-! ## Theorems -/

/-- C3 (counterexample): the round trip is not the identity on every
serialized record — a record carrying an explicit `stickiness = END` loses
it on compression (the slot is omitted) and decompression leaves it absent
rather than restoring it. -/
theorem compress_roundtrip_counterexample :
    decompressInterval (compressInterval
      { sequenceNumber := 0, start := 0, end_ := 1, intervalType := 2,
        stickiness := some IntervalStickiness.END,
        properties := some { rangeLabels := some ["L"] } }) "L" ≠
      { sequenceNumber := 0, start := 0, end_ := 1, intervalType := 2,
        stickiness := some IntervalStickiness.END,
        properties := some { rangeLabels := some ["L"] } } := by
  decide

/-- C3 (amended): for every serialized record whose properties carry
`rangeLabels = [label]` and whose stickiness slot is not an explicit END —
exactly the records `serialize()` produces — compressing and then
decompressing with the collection label restores the record: `rangeLabels`
is stripped on store and re-injected as `[label]` on load, a defined
non-END stickiness is stored and restored, and start, end, sequenceNumber,
intervalType and all other properties round-trip unchanged. -/
theorem compress_decompress_roundtrip (c : ISerializedInterval) (label : String)
    (p : PropertySet) (hp : c.properties = some p)
    (hlab : p.rangeLabels = some [label])
    (hst : c.stickiness ≠ some IntervalStickiness.END) :
    decompressInterval (compressInterval c) label = c := by
  obtain ⟨sn, s, e, it, stick, props⟩ := c
  obtain ⟨rl, iid, oth⟩ := p
  cases hp
  cases hlab
  rcases stick with _ | v
  · simp [decompressInterval, compressInterval]
  · simp only [ISerializedInterval.stickiness] at hst
    simp [decompressInterval, compressInterval]
    intro hv
    exact absurd (congrArg some hv) hst

/-- C3 (witness): the amended round trip evaluated at a concrete record
with FULL stickiness and an extra property. -/
theorem compress_decompress_roundtrip_witness :
    decompressInterval (compressInterval
      { sequenceNumber := 7, start := 2, end_ := 5, intervalType := 2,
        stickiness := some IntervalStickiness.FULL,
        properties := some { rangeLabels := some ["comments"],
                             intervalId := some "id1", other := [("k", "v")] } }) "comments" =
      { sequenceNumber := 7, start := 2, end_ := 5, intervalType := 2,
        stickiness := some IntervalStickiness.FULL,
        properties := some { rangeLabels := some ["comments"],
                             intervalId := some "id1", other := [("k", "v")] } } :=
  compress_decompress_roundtrip _ "comments" _ rfl rfl (by decide)

/-- C6 (counterexample): the stickiness/sliding-preference invariant does
not survive every endpoint-modifying operation.  An interval created with
stickiness NONE (end preference Backward) and then modified on its start
endpoint only keeps the old end reference, while the replacement interval's
stored stickiness silently becomes END — whose End bit demands a Forward
end preference. -/
theorem stickiness_invariant_counterexample :
    ((createSequenceInterval "L" 1 3 IntervalType.SlideOnRemove false false
        IntervalStickiness.NONE).modify (some 2) none false).stickiness &&&
      IntervalStickiness.END ≠ 0 ∧
    ((createSequenceInterval "L" 1 3 IntervalType.SlideOnRemove false false
        IntervalStickiness.NONE).modify (some 2) none false).end_.slidingPreference ≠
      SlidingPreference.FORWARD := by
  decide

/-- C6 (amended): at creation the invariant holds — the created interval
stores the requested stickiness, its start preference is Backward exactly
when the Start bit is set (else Forward), and its end preference is Forward
exactly when the End bit is set (else Backward).  After `modify`, each
freshly created endpoint reference obeys the same rule with respect to the
stickiness argument passed to `modify` (defaulting to END), while an
unchanged endpoint reuses its previous reference — so the invariant holds
relative to the modify-time stickiness for fresh endpoints but not, in
general, relative to the new interval's stored stickiness. -/
theorem sliding_preference_stickiness_rule
    (label : String) (s e : Int) (it : Nat) (op fs : Bool) (st : Nat)
    (i : SequenceInterval) (s? e? : Option Int) (sv ev : Int) (b : Bool) (st' : Nat) :
    ((createSequenceInterval label s e it op fs st).stickiness = st ∧
      (createSequenceInterval label s e it op fs st).start.slidingPreference =
        (if st &&& IntervalStickiness.START ≠ 0 then SlidingPreference.BACKWARD
          else SlidingPreference.FORWARD) ∧
      (createSequenceInterval label s e it op fs st).end_.slidingPreference =
        (if st &&& IntervalStickiness.END ≠ 0 then SlidingPreference.FORWARD
          else SlidingPreference.BACKWARD)) ∧
    ((i.modify (some sv) e? b st').start.slidingPreference =
        (if st' &&& IntervalStickiness.START ≠ 0 then SlidingPreference.BACKWARD
          else SlidingPreference.FORWARD) ∧
      (i.modify s? (some ev) b st').end_.slidingPreference =
        (if st' &&& IntervalStickiness.END ≠ 0 then SlidingPreference.FORWARD
          else SlidingPreference.BACKWARD) ∧
      (i.modify none e? b st').start = i.start ∧
      (i.modify s? none b st').end_ = i.end_) := by
  refine ⟨⟨?_, ?_, ?_⟩, ?_, ?_, ?_, ?_⟩ <;>
    simp [createSequenceInterval, SequenceInterval.modify, createPositionReference,
      startReferenceSlidingPreference, endReferenceSlidingPreference]

/-- C10: `SequenceInterval.modify`, as invoked by
`LocalIntervalCollection.changeInterval` (and hence by
`IntervalCollection.change`, which never passes a stickiness argument),
builds the replacement interval without propagating the original
stickiness: the new interval's stored stickiness is the default END, and
any freshly created endpoint reference gets the default preferences
(Forward for both start and end). -/
theorem modify_reverts_stickiness_to_default
    (i : SequenceInterval) (s? e? : Option Int) (b : Bool) (sv ev : Int)
    (lc : LocalSeqCollection) :
    (i.modify s? e? b).stickiness = IntervalStickiness.END ∧
    (lc.changeInterval i s? e? b).fst = some (i.modify s? e? b) ∧
    (i.modify (some sv) e? b).start.slidingPreference = SlidingPreference.FORWARD ∧
    (i.modify s? (some ev) b).end_.slidingPreference = SlidingPreference.FORWARD := by
  refine ⟨?_, ?_, ?_, ?_⟩ <;>
    simp [SequenceInterval.modify, LocalSeqCollection.changeInterval,
      createPositionReference, startReferenceSlidingPreference,
      endReferenceSlidingPreference, IntervalStickiness.END, IntervalStickiness.START]

/-- C8: `ensureSerializedId` returns an existing `intervalId` with the
record untouched; otherwise it writes the deterministic legacy id
`"legacy" ++ start ++ "-" ++ end` into the properties and returns it; in
both cases the id property ends up non-writable. -/
theorem ensureSerializedId_spec (s : ISerializedInterval) :
    (∀ id0, s.properties.bind (fun p => p.intervalId) = some id0 →
      ensureSerializedId s = { id := id0, serialized := s, idWritable := false }) ∧
    (s.properties.bind (fun p => p.intervalId) = none →
      (ensureSerializedId s).id = "legacy" ++ toString s.start ++ "-" ++ toString s.end_ ∧
      (ensureSerializedId s).serialized.properties.bind (fun p => p.intervalId) =
        some ((ensureSerializedId s).id) ∧
      (ensureSerializedId s).serialized.start = s.start ∧
      (ensureSerializedId s).serialized.end_ = s.end_) ∧
    (ensureSerializedId s).idWritable = false := by
  refine ⟨?_, ?_, ?_⟩
  · intro id0 h
    simp [ensureSerializedId, h]
  · intro h
    simp [ensureSerializedId, h, createLegacyId]
  · rcases h : s.properties.bind (fun p => p.intervalId) with _ | id0 <;>
      simp [ensureSerializedId, h]

/-- C8 (witness): both branches evaluated — a record that already carries
the id "abc", and an id-less record at positions (3, 7) receiving the
legacy id "legacy3-7". -/
theorem ensureSerializedId_witness :
    ensureSerializedId
      { sequenceNumber := 0, start := 1, end_ := 2, intervalType := 2,
        properties := some { intervalId := some "abc" } } =
      { id := "abc"
        serialized :=
          { sequenceNumber := 0, start := 1, end_ := 2, intervalType := 2,
            properties := some { intervalId := some "abc" } }
        idWritable := false } ∧
    (ensureSerializedId { sequenceNumber := 0, start := 3, end_ := 7, intervalType := 2 }).id = "legacy3-7" ∧
    (ensureSerializedId { sequenceNumber := 0, start := 3, end_ := 7, intervalType := 2 }).serialized.properties.bind (fun p => p.intervalId) =
      some "legacy3-7" := by
  refine ⟨(ensureSerializedId_spec _).1 "abc" rfl, ?_, ?_⟩
  · exact ((ensureSerializedId_spec { sequenceNumber := 0, start := 3, end_ := 7, intervalType := 2 }).2.1 rfl).1.trans (by decide)
  · have h := (ensureSerializedId_spec { sequenceNumber := 0, start := 3, end_ := 7, intervalType := 2 }).2.1 rfl
    rw [h.2.1, h.1]
    decide

/-- C9: both in-range queries return the empty result and never touch the
underlying tree whenever `start ≤ 0` or `start > end`. -/
theorem inRange_rejects_invalid_range (entries : List IndexableInterval) (s e : Int)
    (h : s ≤ 0 ∨ s > e) :
    findIntervalsWithEndpointInRange entries s e = ([], false) ∧
    findIntervalsWithStartpointInRange entries s e = ([], false) := by
  have hc : s ≤ 0 ∨ s > e ∨ (entries.isEmpty : Prop) := by
    rcases h with h | h
    · exact Or.inl h
    · exact Or.inr (Or.inl h)
  constructor
  · rw [findIntervalsWithEndpointInRange, if_pos hc]
  · rw [findIntervalsWithStartpointInRange, if_pos hc]

/-- C9 (witness): an invalid range (start 0) over a non-empty index. -/
theorem inRange_rejects_invalid_range_witness :
    findIntervalsWithEndpointInRange
        [{ interval := { start := 1, end_ := 2 } }] 0 5 = ([], false) ∧
    findIntervalsWithStartpointInRange
        [{ interval := { start := 1, end_ := 2 } }] 0 5 = ([], false) :=
  inRange_rejects_invalid_range [{ interval := { start := 1, end_ := 2 } }] 0 5
    (Or.inl (by decide))

/-- C7: `IntervalCollection.add` fails with "Can not add transient
intervals" whenever the interval type includes the Transient bit, and fails
whenever a non-End stickiness is requested while the
`intervalStickinessEnabled` option is off.  Both checks are raised before
any mutation, so the failing call creates no interval, emits no op and
leaves the collection state with the caller. -/
theorem add_rejects_transient_and_stickiness (st : NumCollState) (s e : Int)
    (it : Nat) (props : Option PropertySet) (stick : Nat) :
    (it &&& IntervalType.Transient ≠ 0 →
      st.add s e it props stick = Except.error "Can not add transient intervals") ∧
    (stick ≠ IntervalStickiness.END → st.intervalStickinessEnabled = false →
      ∃ msg, st.add s e it props stick = Except.error msg) := by
  constructor
  · intro h
    simp [NumCollState.add, h]
  · intro h1 h2
    by_cases ht : it &&& IntervalType.Transient ≠ 0
    · exact ⟨"Can not add transient intervals", by simp [NumCollState.add, ht]⟩
    · exact ⟨"attempted to set interval stickiness without enabling intervalStickinessEnabled feature flag",
        by simp [NumCollState.add, ht, h1, h2]⟩

/-- C7 (witness): a transient add and a START-sticky add against a
collection with the stickiness option off both fail. -/
theorem add_rejects_witness :
    ({ label := "L", localCollection := { label := "L" } } : NumCollState).add 0 1
        IntervalType.Transient none IntervalStickiness.END =
      Except.error "Can not add transient intervals" ∧
    ∃ msg, ({ label := "L", localCollection := { label := "L" } } : NumCollState).add 0 1
        IntervalType.SlideOnRemove none IntervalStickiness.START = Except.error msg :=
  ⟨(add_rejects_transient_and_stickiness
      { label := "L", localCollection := { label := "L" } } 0 1
      IntervalType.Transient none IntervalStickiness.END).1 (by decide),
    (add_rejects_transient_and_stickiness
      { label := "L", localCollection := { label := "L" } } 0 1
      IntervalType.SlideOnRemove none IntervalStickiness.START).2 (by decide) rfl⟩

/-- C5 (counterexample): for the SequenceInterval variant the no-op check
does not exist — changing an interval to its current positions (3, 5) still
returns a new interval (not undefined) and modifies the collection. -/
theorem changeInterval_seq_unchanged_counterexample :
    exC5Interval.start.pos = 3 ∧ exC5Interval.end_.pos = 5 ∧
    (exC5Collection.changeInterval exC5Interval (some 3) (some 5) false).fst ≠ none := by
  decide

/-- C5 (amended): for the numeric variant the claim holds as stated —
`changeInterval` calls `modify`; when the requested positions equal the
current ones it returns undefined and leaves the collection untouched, and
otherwise it removes the old interval from every index, adds the new one
(old occurrence erased, new one inserted, in each index), and returns the
new interval.  For the SequenceInterval variant `modify` performs no
unchanged-check: `changeInterval` always removes the old interval, adds the
freshly built `modify` result to every index, and returns it — even when
the requested positions equal the current ones. -/
theorem changeInterval_modify_spec
    (lc : LocalNumCollection) (i : NumInterval) (s e : Option Int)
    (lcs : LocalSeqCollection) (j : SequenceInterval) (s' e' : Option Int) (b : Bool) :
    (s.getD i.start = i.start → e.getD i.end_ = i.end_ →
      lc.changeInterval i s e = (none, lc)) ∧
    (¬ (s.getD i.start = i.start ∧ e.getD i.end_ = i.end_) →
      (lc.changeInterval i s e).fst =
        some { start := s.getD i.start, end_ := e.getD i.end_, properties := i.properties } ∧
      (lc.changeInterval i s e).snd.indexes =
        lc.indexes.map (fun idx =>
          ({ start := s.getD i.start, end_ := e.getD i.end_,
             properties := i.properties } : NumInterval) :: idx.erase i) ∧
      (lc.changeInterval i s e).snd =
        (lc.removeExistingInterval i).add
          { start := s.getD i.start, end_ := e.getD i.end_, properties := i.properties }) ∧
    ((lcs.changeInterval j s' e' b).fst = some (j.modify s' e' b) ∧
      (lcs.changeInterval j s' e' b).snd.indexes =
        lcs.indexes.map (fun idx => (j.modify s' e' b) :: idx.erase j) ∧
      (lcs.changeInterval j s' e' b).snd =
        (lcs.removeExistingInterval j).add (j.modify s' e' b)) := by
  refine ⟨?_, ?_, ?_, ?_, ?_⟩
  · intro h1 h2
    simp [LocalNumCollection.changeInterval, NumInterval.modify, h1, h2]
  · intro h
    have h' : ¬ (i.start = s.getD i.start ∧ i.end_ = e.getD i.end_) := by
      intro hc
      exact h ⟨hc.1.symm, hc.2.symm⟩
    refine ⟨?_, ?_, ?_⟩ <;>
      simp [LocalNumCollection.changeInterval, NumInterval.modify, h',
        LocalNumCollection.removeExistingInterval, LocalNumCollection.add, Function.comp]
  · simp [LocalSeqCollection.changeInterval]
  · simp [LocalSeqCollection.changeInterval, LocalSeqCollection.removeExistingInterval,
      LocalSeqCollection.add]
  · simp [LocalSeqCollection.changeInterval]

/-- C5 (witness): the amended statement evaluated — a no-op numeric change
at the current positions (1, 4) returns undefined with the state untouched,
and a real change of start to 2 returns the updated interval. -/
theorem changeInterval_modify_spec_witness :
    exC5NumColl.changeInterval exC5Num (some 1) (some 4) = (none, exC5NumColl) ∧
    (exC5NumColl.changeInterval exC5Num (some 2) none).fst =
      some { start := 2, end_ := 4, properties := exC5Num.properties } := by
  constructor
  · exact (changeInterval_modify_spec exC5NumColl exC5Num (some 1) (some 4)
      exC5Collection exC5Interval none none false).1 rfl rfl
  · have h := (changeInterval_modify_spec exC5NumColl exC5Num (some 2) none
      exC5Collection exC5Interval none none false).2.1 (by decide)
    exact h.1

/-- Looking up the key just set finds the value just set. -/
theorem alookup_aset {α : Type} (l : List (String × α)) (k : String) (v : α) :
    alookup (aset l k v) k = some v := by
  induction l with
  | nil => simp [aset, alookup]
  | cons hd tl ih =>
    obtain ⟨k', v'⟩ := hd
    by_cases hk : k' = k
    · subst hk
      simp [aset, alookup]
    · simp [aset, alookup, hk, ih]

/-- Value replacement commutes with lookup. -/
theorem alookup_replace {α : Type} [DecidableEq α] (l : List (String × α)) (k : String)
    (o n : α) :
    alookup (l.map (fun kv => if kv.snd = o then (kv.fst, n) else kv)) k =
      (alookup l k).map (fun v => if v = o then n else v) := by
  have hfun : (fun kv : String × α => if kv.snd = o then (kv.fst, n) else kv) =
      (fun kv => (kv.fst, if kv.snd = o then n else kv.snd)) := by
    funext kv
    by_cases h : kv.snd = o <;> simp [h]
  rw [hfun]
  induction l with
  | nil => simp [alookup]
  | cons hd tl ih =>
    obtain ⟨k', v'⟩ := hd
    by_cases hk : k' = k
    · subst hk
      simp [alookup]
    · simp [alookup, hk, ih]

/-- The endpoint-application core of the remote `ackChange` branch: the
interval stored under `id` afterwards is the (property-merged) result of
`changeInterval` with the masked endpoints, whose endpoints are the masked
values (defaulting to the old ones). -/
theorem ackChange_core_lookup (lc : LocalNumCollection) (interval : NumInterval)
    (id : String) (ms me : Option Int) (np : PropertySet)
    (p : Option NumInterval × LocalNumCollection)
    (hp : p = if ms ≠ none ∨ me ≠ none then lc.changeInterval interval ms me
      else (none, lc))
    (hkey : interval.properties.intervalId = some id)
    (hfound : alookup lc.idIntervalIndex id = some interval) :
    alookup ((p.snd.replaceInterval (p.fst.getD interval)
        { p.fst.getD interval with
          properties := mergeProps (p.fst.getD interval).properties np }).idIntervalIndex)
        id =
      some { p.fst.getD interval with
        properties := mergeProps (p.fst.getD interval).properties np } ∧
    (p.fst.getD interval).start = ms.getD interval.start ∧
    (p.fst.getD interval).end_ = me.getD interval.end_ := by
  by_cases hc : ms ≠ none ∨ me ≠ none
  · rw [if_pos hc] at hp
    unfold LocalNumCollection.changeInterval at hp
    cases hmod : interval.modify ms me with
    | none =>
      rw [hmod] at hp
      have hfst : p.fst = none := by rw [hp]
      have hsnd : p.snd = lc := by rw [hp]
      have h1 : interval.start = ms.getD interval.start ∧
          interval.end_ = me.getD interval.end_ := by
        by_cases hcond : interval.start = ms.getD interval.start ∧
            interval.end_ = me.getD interval.end_
        · exact hcond
        · unfold NumInterval.modify at hmod
          rw [if_neg hcond] at hmod
          exact absurd hmod (by simp)
      rw [hfst, hsnd]
      simp only [Option.getD_none]
      refine ⟨?_, h1.1, h1.2⟩
      simp only [LocalNumCollection.replaceInterval]
      rw [alookup_replace, hfound]
      simp
    | some n =>
      rw [hmod] at hp
      have hfst : p.fst = some n := by rw [hp]
      have hsnd : p.snd = (lc.removeExistingInterval interval).add n := by rw [hp]
      have hn : n =
          { start := ms.getD interval.start, end_ := me.getD interval.end_,
            properties := interval.properties } := by
        unfold NumInterval.modify at hmod
        by_cases hcond : interval.start = ms.getD interval.start ∧
            interval.end_ = me.getD interval.end_
        · rw [if_pos hcond] at hmod
          exact absurd hmod (by simp)
        · rw [if_neg hcond] at hmod
          exact (Option.some_injective _ hmod).symm
      have hprops : n.properties = interval.properties := by rw [hn]
      have hkeyn : n.properties.intervalId.getD "" = id := by
        rw [hprops, hkey]
        rfl
      rw [hfst, hsnd]
      simp only [Option.getD_some]
      refine ⟨?_, by rw [hn], by rw [hn]⟩
      simp only [LocalNumCollection.replaceInterval, LocalNumCollection.add,
        LocalNumCollection.removeExistingInterval]
      rw [alookup_replace, hkeyn, alookup_aset]
      simp
  · rw [if_neg hc] at hp
    have hfst : p.fst = none := by rw [hp]
    have hsnd : p.snd = lc := by rw [hp]
    push_neg at hc
    rw [hfst, hsnd]
    simp only [Option.getD_none]
    refine ⟨?_, by simp [hc.1], by simp [hc.2]⟩
    simp only [LocalNumCollection.replaceInterval]
    rw [alookup_replace, hfound]
    simp

/-- C1: a remote `ackChange` for an existing interval applies the remote
start value exactly when no local start change for that id is pending, and
independently applies the remote end value exactly when no local end change
is pending; a pending endpoint keeps its local value. -/
theorem ackChange_remote_pending_wins
    (st : NumCollState) (sd : SerializedIntervalDelta) (id : String)
    (interval : NumInterval)
    (hid : sd.properties.bind (fun p => p.intervalId) = some id)
    (hfound : st.getIntervalById id = some interval)
    (hkey : interval.properties.intervalId = some id) :
    ∃ st', st.ackChange sd false none = Except.ok st' ∧
      ∃ i', st'.getIntervalById id = some i' ∧
        i'.start = (if st.hasPendingChangeStart id then interval.start
          else sd.start.getD interval.start) ∧
        i'.end_ = (if st.hasPendingChangeEnd id then interval.end_
          else sd.end_.getD interval.end_) := by
  have hms : (if st.hasPendingChangeStart id then none else sd.start).getD interval.start =
      (if st.hasPendingChangeStart id then interval.start
        else sd.start.getD interval.start) := by
    by_cases hps : st.hasPendingChangeStart id <;> simp [hps]
  have hme : (if st.hasPendingChangeEnd id then none else sd.end_).getD interval.end_ =
      (if st.hasPendingChangeEnd id then interval.end_
        else sd.end_.getD interval.end_) := by
    by_cases hpe : st.hasPendingChangeEnd id <;> simp [hpe]
  obtain ⟨h1, h2, h3⟩ := ackChange_core_lookup st.localCollection interval id
    (if st.hasPendingChangeStart id then none else sd.start)
    (if st.hasPendingChangeEnd id then none else sd.end_)
    { sd.properties.getD {} with intervalId := none } _ rfl hkey hfound
  unfold NumCollState.ackChange
  simp only [hid, hfound, pure_bind, Bool.false_eq_true, if_false]
  refine ⟨_, rfl, _, h1, ?_, ?_⟩
  · rw [← hms]
    exact h2
  · rw [← hme]
    exact h3

/-- C1 (witness): against a collection holding interval "a" at (0, 1) with
a locally pending start change, a remote change to (5, 9) leaves the start
at 0 (local pending wins) and moves the end to 9. -/
theorem ackChange_remote_pending_wins_witness :
    ∃ st', exC1State.ackChange exC1Delta false none = Except.ok st' ∧
      ∃ i', st'.getIntervalById "a" = some i' ∧
        i'.start = 0 ∧ i'.end_ = 9 := by
  obtain ⟨st', h1, i', h2, h3, h4⟩ :=
    ackChange_remote_pending_wins exC1State exC1Delta "a" exC1Interval rfl rfl rfl
  refine ⟨st', h1, i', h2, ?_, ?_⟩
  · rw [h3]
    decide
  · rw [h4]
    decide

/-- A key that is not among the binding keys looks up to nothing. -/
theorem alookup_eq_none {α : Type} (l : List (String × α)) (k : String)
    (h : k ∉ l.map Prod.fst) : alookup l k = none := by
  induction l with
  | nil => rfl
  | cons hd tl ih =>
    obtain ⟨k', v'⟩ := hd
    simp only [List.map, List.mem_cons, not_or] at h
    have hk : k' ≠ k := fun hh => h.1 hh.symm
    simp [alookup, hk, ih h.2]

/-- Erasing a key from a map with no duplicate keys removes its binding. -/
theorem alookup_aerase {α : Type} (l : List (String × α)) (k : String)
    (hnd : (l.map Prod.fst).Nodup) : alookup (aerase l k) k = none := by
  induction l with
  | nil => rfl
  | cons hd tl ih =>
    obtain ⟨k', v'⟩ := hd
    simp only [List.map, List.nodup_cons] at hnd
    by_cases hk : k' = k
    · subst hk
      simp only [aerase, if_pos rfl]
      exact alookup_eq_none tl k' hnd.1
    · simp [aerase, alookup, hk, ih hnd.2]

/-- C4: for every pending local op whose rebase run succeeds: when either
rebased endpoint position is the DetachedReferencePosition sentinel the
returned delta is `none` (the outbound op is dropped) and an interval still
stored under the op's id is no longer in the collection afterwards;
otherwise the returned delta carries exactly the recomputed start and end
(with the op's interval type and properties, restamped at the current
sequence number). -/
theorem rebaseLocalInterval_detached_spec
    (st : SeqCollState) (cmp : SerializedIntervalDelta) (opName : String)
    (sd : SerializedIntervalDelta) (localSeq : Nat)
    (r : Option SerializedIntervalDelta) (st' : SeqCollState)
    (hrun : st.rebaseLocalInterval cmp opName sd localSeq = Except.ok (r, st'))
    (hnd : (st.localCollection.idIntervalIndex.map Prod.fst).Nodup) :
    (((alookup st.localSeqToRebasedInterval localSeq).getD cmp).start =
          some DetachedReferencePosition ∨
        ((alookup st.localSeqToRebasedInterval localSeq).getD cmp).end_ =
          some DetachedReferencePosition →
      r = none ∧
      ∀ li, alookup st.localCollection.idIntervalIndex
            ((sd.properties.bind (fun p => p.intervalId)).getD "") = some li →
        li.properties.intervalId.getD "" =
          (sd.properties.bind (fun p => p.intervalId)).getD "" →
        alookup st'.localCollection.idIntervalIndex
          ((sd.properties.bind (fun p => p.intervalId)).getD "") = none) ∧
    (¬ (((alookup st.localSeqToRebasedInterval localSeq).getD cmp).start =
          some DetachedReferencePosition ∨
        ((alookup st.localSeqToRebasedInterval localSeq).getD cmp).end_ =
          some DetachedReferencePosition) →
      ∃ d, r = some d ∧
        d.start = ((alookup st.localSeqToRebasedInterval localSeq).getD cmp).start ∧
        d.end_ = ((alookup st.localSeqToRebasedInterval localSeq).getD cmp).end_ ∧
        d.intervalType = sd.intervalType ∧
        d.sequenceNumber = st.currentSeq ∧
        d.properties = sd.properties) := by
  simp only [SeqCollState.rebaseLocalInterval] at hrun
  split at hrun
  · exact absurd hrun (by simp)
  rename_i st2 heq
  have hlc : st2.localCollection = st.localCollection := by
    split at heq
    · split at heq
      · exact absurd heq (by simp)
      · simp only [Except.ok.injEq] at heq
        rw [← heq]
    · simp only [Except.ok.injEq] at heq
      rw [← heq]
  split at hrun
  · rename_i hdet
    simp only [Except.ok.injEq, Prod.mk.injEq] at hrun
    obtain ⟨hr, hst⟩ := hrun
    constructor
    · intro _
      refine ⟨hr.symm, ?_⟩
      intro li hli hkeyli
      rw [hli] at hst
      rw [← hst]
      simp only [LocalSeqCollection.removeExistingInterval, hlc]
      rw [hkeyli]
      exact alookup_aerase _ _ hnd
    · intro hnodet
      exact absurd hdet hnodet
  · rename_i hnodet
    simp only [Except.ok.injEq, Prod.mk.injEq] at hrun
    obtain ⟨hr, hst⟩ := hrun
    constructor
    · intro hdet
      exact absurd hdet hnodet
    · intro _
      exact ⟨_, hr.symm, rfl, rfl, rfl, rfl, rfl⟩

/-- C4 (witness): rebasing the pending op for "a" with a detached start
drops the op and removes the interval; rebasing it with live positions
(4, 6) returns the rebased delta carrying those endpoints. -/
theorem rebaseLocalInterval_spec_witness :
    (∃ st', exC4State.rebaseLocalInterval exC4Detached "add" exC4Delta 1 =
        Except.ok (none, st') ∧
      alookup st'.localCollection.idIntervalIndex "a" = none) ∧
    (∃ d st'', exC4State.rebaseLocalInterval exC4Ok "add" exC4Delta 1 =
        Except.ok (some d, st'') ∧ d.start = some 4 ∧ d.end_ = some 6) := by
  constructor
  · have hrun : exC4State.rebaseLocalInterval exC4Detached "add" exC4Delta 1 =
        Except.ok (none,
          { exC4State with
            localCollection :=
              exC4State.localCollection.removeExistingInterval exC4Interval }) := by
      rfl
    obtain ⟨hdet, _⟩ := rebaseLocalInterval_detached_spec exC4State exC4Detached "add"
      exC4Delta 1 none _ hrun (by decide)
    obtain ⟨_, hrem⟩ := hdet (Or.inl rfl)
    exact ⟨_, hrun, hrem exC4Interval rfl rfl⟩
  · have hrun : exC4State.rebaseLocalInterval exC4Ok "add" exC4Delta 1 =
        Except.ok (some
          { sequenceNumber := 0, start := some 4, end_ := some 6, intervalType := 2,
            stickiness := none, properties := exC4Delta.properties },
          { exC4State with
            localCollection :=
              (exC4State.localCollection.changeInterval exC4Interval (some 4) (some 6)
                false).snd }) := by
      rfl
    obtain ⟨_, hok⟩ := rebaseLocalInterval_detached_spec exC4State exC4Ok "add"
      exC4Delta 1 _ _ hrun (by decide)
    obtain ⟨d, hd, hds, hde, _, _, _⟩ := hok (by decide)
    refine ⟨d,
      { exC4State with
        localCollection :=
          (exC4State.localCollection.changeInterval exC4Interval (some 4) (some 6)
            false).snd }, ?_, ?_, ?_⟩
    · rw [← hd]
      exact hrun
    · rw [hds]
      decide
    · rw [hde]
      decide

theorem countAfter_cons_before (rest : List SlideEvent) :
    countAfter (SlideEvent.beforeSlide :: rest) = countAfter rest := by
  simp [countAfter]

theorem countBefore_cons_before (rest : List SlideEvent) :
    countBefore (SlideEvent.beforeSlide :: rest) = countBefore rest + 1 := by
  simp [countBefore]

theorem countAfter_cons_after (rest : List SlideEvent) :
    countAfter (SlideEvent.afterSlide :: rest) = countAfter rest + 1 := by
  simp [countAfter]

theorem countBefore_cons_after (rest : List SlideEvent) :
    countBefore (SlideEvent.afterSlide :: rest) = countBefore rest := by
  simp [countBefore]

/-- Helper for C2: from a mid-burst state — open clone, counter `k > 0`,
interval absent from every index — a remaining event list that balances the
counter exactly at its end runs to completion, re-adds the interval to every
index exactly once, fires `onPositionChange` exactly once, and closes the
burst. -/
theorem runSlideEvents_open (iv : SequenceInterval) (evs : List SlideEvent) :
    ∀ (st : SlideListenerState) (k : Nat),
      st.pendingChanges = (k : Int) → 0 < k → st.previousInterval.isSome →
      (∀ idx ∈ st.indexes, idx.count iv = 0) →
      countAfter evs = countBefore evs + k →
      (∀ j, j < evs.length → countAfter (evs.take j) < countBefore (evs.take j) + k) →
      ∃ st', runSlideEvents iv st evs = Except.ok st' ∧
        (∀ idx ∈ st'.indexes, idx.count iv = 1) ∧
        st'.positionChangeCount = st.positionChangeCount + 1 ∧
        st'.pendingChanges = 0 ∧ st'.previousInterval = none := by
  induction evs with
  | nil =>
    intro st k hpc hk _ _ hbal _
    exfalso
    simp [countAfter, countBefore] at hbal
    omega
  | cons e rest ih =>
    intro st k hpc hk hprev hcnt hbal hpre
    obtain ⟨p, hp⟩ := Option.isSome_iff_exists.mp hprev
    cases e with
    | beforeSlide =>
      have hstep : beforeSlideStep iv st =
          { st with pendingChanges := st.pendingChanges + 1 } := by
        simp [beforeSlideStep, hp]
      have hrun : runSlideEvents iv st (SlideEvent.beforeSlide :: rest) =
          runSlideEvents iv { st with pendingChanges := st.pendingChanges + 1 } rest := by
        rw [runSlideEvents, hstep]
      rw [hrun]
      apply ih _ (k + 1)
      · rw [hpc]
        push_cast
        ring
      · omega
      · simp [hp]
      · exact hcnt
      · rw [countAfter_cons_before, countBefore_cons_before] at hbal
        omega
      · intro j hj
        have := hpre (j + 1) (by simpa using Nat.succ_lt_succ hj)
        rw [List.take_succ_cons, countAfter_cons_before, countBefore_cons_before] at this
        omega
    | afterSlide =>
      obtain _ | k' := k
      · omega
      have hpc1 : st.pendingChanges - 1 = (k' : Int) := by
        rw [hpc]
        push_cast
        ring
      by_cases hk' : k' = 0
      · subst hk'
        have hstep : afterSlideStep iv st = Except.ok
            { pendingChanges := st.pendingChanges - 1
              previousInterval := none
              indexes := st.indexes.map (fun idx => iv :: idx)
              positionChangeCount := st.positionChangeCount + 1 } := by
          rw [afterSlideStep, hp]
          simp [hpc1]
        have hrest : rest = [] := by
          by_contra hne
          have hlen : 1 < (SlideEvent.afterSlide :: rest).length := by
            cases rest with
            | nil => exact absurd rfl hne
            | cons _ _ => simp
          have := hpre 1 hlen
          simp [countAfter, countBefore] at this
        subst hrest
        refine ⟨{ pendingChanges := st.pendingChanges - 1
                  previousInterval := none
                  indexes := st.indexes.map (fun idx => iv :: idx)
                  positionChangeCount := st.positionChangeCount + 1 }, ?_, ?_, ?_, ?_, ?_⟩
        · rw [runSlideEvents, hstep]
          rfl
        · intro idx hidx
          simp only [List.mem_map] at hidx
          obtain ⟨idx0, hidx0, rfl⟩ := hidx
          simp [hcnt idx0 hidx0]
        · rfl
        · rw [hpc1]
          norm_num
        · rfl
      · have hstep : afterSlideStep iv st = Except.ok
            { st with pendingChanges := st.pendingChanges - 1 } := by
          rw [afterSlideStep, hp]
          rw [hpc1]
          simp [hk']
        have hrun : runSlideEvents iv st (SlideEvent.afterSlide :: rest) =
            runSlideEvents iv { st with pendingChanges := st.pendingChanges - 1 } rest := by
          rw [runSlideEvents, hstep]
        rw [hrun]
        apply ih _ k'
        · exact hpc1
        · omega
        · simp [hp]
        · exact hcnt
        · rw [countAfter_cons_after, countBefore_cons_after] at hbal
          omega
        · intro j hj
          have := hpre (j + 1) (by simpa using Nat.succ_lt_succ hj)
          rw [List.take_succ_cons, countAfter_cons_after, countBefore_cons_after] at this
          omega

/-- C2: for every slide burst (each afterSlide preceded by a matching
beforeSlide, balance reached exactly at the end) run against a state in
which the interval sits in every index exactly once with no open burst:
the burst begins with a beforeSlide, whose processing removes the interval
from all indices; the full run succeeds, and when the afterSlide count
reaches the beforeSlide count the interval has been re-added to every index
exactly once and `onPositionChange` has fired exactly once.  An afterSlide
arriving with no open burst is a fatal assertion (0x3fa). -/
theorem slide_burst_protocol (iv : SequenceInterval) (st : SlideListenerState)
    (evs : List SlideEvent)
    (hpc : st.pendingChanges = 0) (hprev : st.previousInterval = none)
    (hcnt : ∀ idx ∈ st.indexes, idx.count iv = 1)
    (hburst : IsSlideBurst evs) :
    evs.head? = some SlideEvent.beforeSlide ∧
    (∀ idx ∈ (beforeSlideStep iv st).indexes, idx.count iv = 0) ∧
    (∃ st', runSlideEvents iv st evs = Except.ok st' ∧
      (∀ idx ∈ st'.indexes, idx.count iv = 1) ∧
      st'.positionChangeCount = st.positionChangeCount + 1 ∧
      st'.pendingChanges = 0 ∧ st'.previousInterval = none) ∧
    (∀ rest, ∃ msg, runSlideEvents iv st (SlideEvent.afterSlide :: rest) =
      Except.error msg) := by
  obtain ⟨hne, hbal, hpre⟩ := hburst
  obtain _ | ⟨e, rest⟩ := evs
  · exact absurd rfl hne
  have hfirst : e = SlideEvent.beforeSlide := by
    cases e
    · rfl
    · exfalso
      cases rest with
      | nil => simp [countAfter, countBefore] at hbal
      | cons e2 r2 =>
        have := hpre 1 (by simp) (by omega)
        simp [countAfter, countBefore] at this
  subst hfirst
  have h0 : ∀ idx ∈ (beforeSlideStep iv st).indexes, idx.count iv = 0 := by
    intro idx hidx
    simp only [beforeSlideStep, hprev, List.mem_map] at hidx
    obtain ⟨idx0, hidx0, rfl⟩ := hidx
    rw [List.count_erase_self, hcnt idx0 hidx0]
  refine ⟨rfl, h0, ?_, ?_⟩
  · have hrun : runSlideEvents iv st (SlideEvent.beforeSlide :: rest) =
        runSlideEvents iv (beforeSlideStep iv st) rest := rfl
    rw [hrun]
    have hopc : (beforeSlideStep iv st).pendingChanges = ((1 : Nat) : Int) := by
      simp [beforeSlideStep, hprev, hpc]
    have hoprev : (beforeSlideStep iv st).previousInterval.isSome := by
      simp [beforeSlideStep, hprev]
    have hobal : countAfter rest = countBefore rest + 1 := by
      rw [countAfter_cons_before, countBefore_cons_before] at hbal
      omega
    have hopre : ∀ j, j < rest.length →
        countAfter (rest.take j) < countBefore (rest.take j) + 1 := by
      intro j hj
      have := hpre (j + 1) (by simpa using Nat.succ_lt_succ hj) (by omega)
      rw [List.take_succ_cons, countAfter_cons_before, countBefore_cons_before] at this
      omega
    obtain ⟨st', ha, hb, hc, hd, he⟩ :=
      runSlideEvents_open iv rest (beforeSlideStep iv st) 1 hopc (by omega) hoprev h0
        hobal hopre
    have hpcc1 : (beforeSlideStep iv st).positionChangeCount = st.positionChangeCount := by
      simp [beforeSlideStep, hprev]
    exact ⟨st', ha, hb, by rw [hc, hpcc1], hd, he⟩
  · intro rest'
    refine ⟨"Invalid interleaving of before/after slide", ?_⟩
    rw [runSlideEvents, afterSlideStep, hprev]

/-- C2 (witness): the burst before-before-after-after over a state holding
the interval once in each of two indices runs to completion, leaves the
interval once in every index, and fires the position-change callback
once. -/
theorem slide_burst_protocol_witness :
    exC2Burst.head? = some SlideEvent.beforeSlide ∧
    ∃ st', runSlideEvents exC2Interval exC2State exC2Burst = Except.ok st' ∧
      (∀ idx ∈ st'.indexes, idx.count exC2Interval = 1) ∧
      st'.positionChangeCount = 1 := by
  obtain ⟨h1, _, h3, _⟩ := slide_burst_protocol exC2Interval exC2State exC2Burst
    rfl rfl (by decide) ⟨by decide, by decide, by decide⟩
  obtain ⟨st', hrunq, hcntq, hpcc, _⟩ := h3
  refine ⟨h1, st', hrunq, hcntq, ?_⟩
  rw [hpcc]
  decide

end Fluid
